import Mathlib

/-!
# Shallow embedding of the `shitclean` traversal core (src/main.go)

The program walks a directory tree, memoizes directory listings in a cache,
runs a registry of artifact detectors at every visited directory, skips
symlinks and a fixed set of directory names when recursing, bounds the
recursion depth, and counts processed directories.

Modelling conventions:
* A filesystem path is a `List String` of components; `filepath.Join path name`
  becomes `path ++ [name]`.
* `os.DirEntry` becomes `DirEntry` (name and is-directory flag, as used by the
  program).
* The filesystem is a record of two oracles mirroring the two syscalls the core
  uses: `readDir` (`os.ReadDir`) and `lstat` (`os.Lstat`, reduced to the only
  bit the program inspects: did it fail, and is the mode a symlink).
* The global `dirEntriesCache` (`sync.Map`) and the read side effects become an
  explicit `CacheState` threaded through every function, with a ghost `reads`
  log recording each underlying `os.ReadDir` call.
* The walker's shared state (`results` channel contents, `dirCount`) becomes
  `WalkState`; `WalkGhost` adds ghost logs of scheduled child visits and of
  directories whose full body completed.  The sequential execution modelled
  here is the program's synchronous-fallback order (the order the code takes
  whenever the semaphore is full, e.g. with pool size 0).
-/

set_option autoImplicit false

namespace ShitClean

/-- `maxRecursionDepth` from src/main.go line 16. -/
def maxRecursionDepth : Nat := 1000

/-- `concurrencyLimit` from src/main.go line 17 (size of the semaphore pool). -/
def concurrencyLimit : Nat := 50

/-- One `os.DirEntry` as the program consumes it: a name and the is-directory
flag. -/
structure DirEntry where
  name : String
  isDir : Bool
deriving DecidableEq, Repr

/-- The filesystem oracle: `readDir` models `os.ReadDir`, `lstat` models
`os.Lstat` reduced to the only information the program uses (failure, and
whether the mode has the symlink bit). -/
structure FS where
  readDir : List String → Except String (List DirEntry)
  lstat : List String → Except String Bool

/-- The skip set `skipDirs` from src/main.go lines 22-35. -/
def skipDirs : List String :=
  ["target", "node_modules", "CMakeFiles", "build", "bin", "obj", "dist",
   ".gradle", ".idea", ".vscode", ".dub", ".build"]

/-- State of the directory cache (`dirEntriesCache` sync.Map), plus a ghost
log `reads` of every underlying `os.ReadDir` call performed. -/
structure CacheState where
  cache : List (List String × List DirEntry)
  reads : List (List String)
deriving DecidableEq, Repr

/-- First-match association lookup, modelling `sync.Map.Load`. -/
def lookupPath : List (List String × List DirEntry) → List String → Option (List DirEntry)
  | [], _ => none
  | (k, v) :: rest, p => if k = p then some v else lookupPath rest p

/-- Association store, modelling `sync.Map.Store`: overwrite the key if
present, append it otherwise. -/
def storePath : List (List String × List DirEntry) → List String → List DirEntry →
    List (List String × List DirEntry)
  | [], p, v => [(p, v)]
  | (k, w) :: rest, p, v =>
    if k = p then (p, v) :: rest else (k, w) :: storePath rest p v

/-- `readDirCached` (src/main.go lines 42-52): on a cache hit return the stored
entries; on a miss perform the underlying read (logged in `reads`) and store
the result only when the read succeeded — a failed read is returned without
being stored. -/
def readDirCached (fs : FS) (path : List String) (c : CacheState) :
    Except String (List DirEntry) × CacheState :=
  match lookupPath c.cache path with
  | some v => (Except.ok v, c)
  | none =>
    let c1 : CacheState := { c with reads := c.reads ++ [path] }
    match fs.readDir path with
    | Except.error e => (Except.error e, c1)
    | Except.ok entries =>
      (Except.ok entries, { c1 with cache := storePath c1.cache path entries })

/-- `nonEmptyDir` (src/main.go lines 108-114): a directory is non-empty when it
can be listed and has at least one entry. -/
def nonEmptyDir (fs : FS) (path : List String) (c : CacheState) : Bool × CacheState :=
  match readDirCached fs path c with
  | (Except.error _, c1) => (false, c1)
  | (Except.ok entries, c1) => (decide (entries.length > 0), c1)

/-- `hasName` (src/main.go lines 94-97). -/
def hasName (nameMap : String → Option DirEntry) (name : String) : Bool :=
  (nameMap name).isSome

/-- `strings.ToLower`, character-wise (the file-name suffixes the program
lowercases are ASCII). -/
def strToLower (s : String) : String := ⟨s.data.map Char.toLower⟩

/-- `strings.HasSuffix`. -/
def strEndsWith (s suf : String) : Bool := List.isSuffixOf suf.data s.data

/-- `strings.HasPrefix`. -/
def strStartsWith (s pre : String) : Bool := List.isPrefixOf pre.data s.data

/-- `anySuffix` (src/main.go lines 99-106). -/
def anySuffix (entries : List DirEntry) (suf : String) : Bool :=
  entries.any fun e => !e.isDir && strEndsWith (strToLower e.name) suf

/-- The name-indexed lookup built by `walkDir` (src/main.go lines 513-516);
as with a Go map, a later entry with the same name overwrites an earlier one. -/
def mkNameMap (entries : List DirEntry) : String → Option DirEntry :=
  fun n => entries.foldl (fun acc e => if e.name = n then some e else acc) none

/-- A detector predicate (src/main.go line 55): given the current directory's
path, its entries and the name-indexed lookup, decide whether an artifact was
found and which directory to delete.  The empty path `[]` stands for Go's
empty string result.  The cache state is threaded explicitly because the Go
detectors reach the global cache through `nonEmptyDir`. -/
def DetectorFunc : Type :=
  FS → List String → List DirEntry → (String → Option DirEntry) → CacheState →
    (Bool × List String) × CacheState

/-- The `for _, d := range names { if nonEmptyDir(filepath.Join(path, d)) }`
loop shared (inlined) by several detectors: return the first candidate
subdirectory that is non-empty. -/
def firstNonEmptyName (fs : FS) (path : List String) :
    List String → CacheState → Option (List String) × CacheState
  | [], c => (none, c)
  | d :: rest, c =>
    match nonEmptyDir fs (path ++ [d]) c with
    | (true, c1) => (some (path ++ [d]), c1)
    | (false, c1) => firstNonEmptyName fs path rest c1

/-- `detectCargo` (src/main.go lines 120-129). -/
def detectCargo : DetectorFunc := fun fs path _entries nameMap c =>
  if hasName nameMap "Cargo.toml" = false then ((false, []), c)
  else
    match nonEmptyDir fs (path ++ ["target"]) c with
    | (true, c1) => ((true, path ++ ["target"]), c1)
    | (false, c1) => ((false, []), c1)

/-- `detectQobs` (src/main.go lines 131-140). -/
def detectQobs : DetectorFunc := fun fs path _entries nameMap c =>
  if hasName nameMap "Qobs.toml" = false then ((false, []), c)
  else
    match nonEmptyDir fs (path ++ ["build"]) c with
    | (true, c1) => ((true, path ++ ["build"]), c1)
    | (false, c1) => ((false, []), c1)

/-- `detectNode` (src/main.go lines 142-151). -/
def detectNode : DetectorFunc := fun fs path _entries nameMap c =>
  if hasName nameMap "package.json" = false then ((false, []), c)
  else
    match nonEmptyDir fs (path ++ ["node_modules"]) c with
    | (true, c1) => ((true, path ++ ["node_modules"]), c1)
    | (false, c1) => ((false, []), c1)

/-- `detectCMake` (src/main.go lines 153-162).  Note: on a match it reports
`path` itself, not the `CMakeFiles` subdirectory. -/
def detectCMake : DetectorFunc := fun fs path _entries nameMap c =>
  if (hasName nameMap "CMakeCache.txt" && hasName nameMap "CMakeFiles") = false then
    ((false, []), c)
  else
    match nonEmptyDir fs (path ++ ["CMakeFiles"]) c with
    | (true, c1) => ((true, path), c1)
    | (false, c1) => ((false, []), c1)

/-- `detectMaven` (src/main.go lines 164-173). -/
def detectMaven : DetectorFunc := fun fs path _entries nameMap c =>
  if hasName nameMap "pom.xml" = false then ((false, []), c)
  else
    match nonEmptyDir fs (path ++ ["target"]) c with
    | (true, c1) => ((true, path ++ ["target"]), c1)
    | (false, c1) => ((false, []), c1)

/-- `detectGradle` (src/main.go lines 175-185). -/
def detectGradle : DetectorFunc := fun fs path _entries nameMap c =>
  if (hasName nameMap "build.gradle" || hasName nameMap "build.gradle.kts") = false then
    ((false, []), c)
  else
    match nonEmptyDir fs (path ++ ["build"]) c with
    | (true, c1) => ((true, path ++ ["build"]), c1)
    | (false, c1) => ((false, []), c1)

/-- `detectDotNet` (src/main.go lines 187-212): requires a `.csproj` or `.sln`
file, then prefers `bin` over `obj`. -/
def detectDotNet : DetectorFunc := fun fs path entries _nameMap c =>
  let foundProj := entries.any fun e =>
    !e.isDir && (strEndsWith (strToLower e.name) ".csproj" || strEndsWith (strToLower e.name) ".sln")
  if foundProj = false then ((false, []), c)
  else
    match nonEmptyDir fs (path ++ ["bin"]) c with
    | (true, c1) => ((true, path ++ ["bin"]), c1)
    | (false, c1) =>
      match nonEmptyDir fs (path ++ ["obj"]) c1 with
      | (true, c2) => ((true, path ++ ["obj"]), c2)
      | (false, c2) => ((false, []), c2)

/-- `detectPython` (src/main.go lines 214-228). -/
def detectPython : DetectorFunc := fun fs path _entries nameMap c =>
  if (hasName nameMap "setup.py" || hasName nameMap "pyproject.toml") = false then
    ((false, []), c)
  else
    match nonEmptyDir fs (path ++ ["build"]) c with
    | (true, c1) => ((true, path ++ ["build"]), c1)
    | (false, c1) =>
      match nonEmptyDir fs (path ++ ["dist"]) c1 with
      | (true, c2) => ((true, path ++ ["dist"]), c2)
      | (false, c2) => ((false, []), c2)

/-- `detectD` (src/main.go lines 230-240). -/
def detectD : DetectorFunc := fun fs path _entries nameMap c =>
  if (hasName nameMap "dub.json" || hasName nameMap "dub.sdl") = false then ((false, []), c)
  else
    match nonEmptyDir fs (path ++ [".dub"]) c with
    | (true, c1) => ((true, path ++ [".dub"]), c1)
    | (false, c1) => ((false, []), c1)

/-- `detectJai` (src/main.go lines 242-255). -/
def detectJai : DetectorFunc := fun fs path entries _nameMap c =>
  if anySuffix entries ".jai" = false then ((false, []), c)
  else
    match firstNonEmptyName fs path ["bin", ".build"] c with
    | (some p, c1) => ((true, p), c1)
    | (none, c1) => ((false, []), c1)

/-- `detectSwiftPM` (src/main.go lines 257-266). -/
def detectSwiftPM : DetectorFunc := fun fs path _entries nameMap c =>
  if hasName nameMap "Package.swift" = false then ((false, []), c)
  else
    match nonEmptyDir fs (path ++ [".build"]) c with
    | (true, c1) => ((true, path ++ [".build"]), c1)
    | (false, c1) => ((false, []), c1)

/-- The entry loop of `detectBazel` (src/main.go lines 272-276): the first
entry whose name starts with "bazel-" and denotes a non-empty directory. -/
def bazelLoop (fs : FS) (path : List String) :
    List DirEntry → CacheState → Option (List String) × CacheState
  | [], c => (none, c)
  | e :: rest, c =>
    if strStartsWith e.name "bazel-" then
      match nonEmptyDir fs (path ++ [e.name]) c with
      | (true, c1) => (some (path ++ [e.name]), c1)
      | (false, c1) => bazelLoop fs path rest c1
    else bazelLoop fs path rest c

/-- `detectBazel` (src/main.go lines 268-278). -/
def detectBazel : DetectorFunc := fun fs path entries nameMap c =>
  if (hasName nameMap "WORKSPACE" || hasName nameMap "BUILD") = false then ((false, []), c)
  else
    match bazelLoop fs path entries c with
    | (some p, c1) => ((true, p), c1)
    | (none, c1) => ((false, []), c1)

/-- `detectMeson` (src/main.go lines 280-291). -/
def detectMeson : DetectorFunc := fun fs path _entries nameMap c =>
  if hasName nameMap "meson.build" = false then ((false, []), c)
  else
    match firstNonEmptyName fs path ["build", "_build"] c with
    | (some p, c1) => ((true, p), c1)
    | (none, c1) => ((false, []), c1)

/-- `detectNinja` (src/main.go lines 293-302). -/
def detectNinja : DetectorFunc := fun fs path _entries nameMap c =>
  if hasName nameMap "build.ninja" = false then ((false, []), c)
  else
    match nonEmptyDir fs (path ++ ["build"]) c with
    | (true, c1) => ((true, path ++ ["build"]), c1)
    | (false, c1) => ((false, []), c1)

/-- `detectSBT` (src/main.go lines 304-313). -/
def detectSBT : DetectorFunc := fun fs path _entries nameMap c =>
  if hasName nameMap "build.sbt" = false then ((false, []), c)
  else
    match nonEmptyDir fs (path ++ ["target"]) c with
    | (true, c1) => ((true, path ++ ["target"]), c1)
    | (false, c1) => ((false, []), c1)

/-- The key loop of `detectCabal` (src/main.go lines 316-325): for each name
ending in ".cabal" try `dist-newstyle` then `dist`; Go iterates the keys of
`nameMap`, modelled by the entry-name list. -/
def cabalLoop (fs : FS) (path : List String) :
    List String → CacheState → Option (List String) × CacheState
  | [], c => (none, c)
  | n :: rest, c =>
    if strEndsWith n ".cabal" then
      match firstNonEmptyName fs path ["dist-newstyle", "dist"] c with
      | (some p, c1) => (some p, c1)
      | (none, c1) => cabalLoop fs path rest c1
    else cabalLoop fs path rest c

/-- `detectCabal` (src/main.go lines 315-327). -/
def detectCabal : DetectorFunc := fun fs path entries _nameMap c =>
  match cabalLoop fs path (entries.map (fun e => e.name)) c with
  | (some p, c1) => ((true, p), c1)
  | (none, c1) => ((false, []), c1)

/-- `detectStack` (src/main.go lines 329-338). -/
def detectStack : DetectorFunc := fun fs path _entries nameMap c =>
  if hasName nameMap "stack.yaml" = false then ((false, []), c)
  else
    match nonEmptyDir fs (path ++ [".stack-work"]) c with
    | (true, c1) => ((true, path ++ [".stack-work"]), c1)
    | (false, c1) => ((false, []), c1)

/-- `detectComposer` (src/main.go lines 340-349). -/
def detectComposer : DetectorFunc := fun fs path _entries nameMap c =>
  if hasName nameMap "composer.json" = false then ((false, []), c)
  else
    match nonEmptyDir fs (path ++ ["vendor"]) c with
    | (true, c1) => ((true, path ++ ["vendor"]), c1)
    | (false, c1) => ((false, []), c1)

/-- `detectBundler` (src/main.go lines 351-360). -/
def detectBundler : DetectorFunc := fun fs path _entries nameMap c =>
  if hasName nameMap "Gemfile" = false then ((false, []), c)
  else
    match nonEmptyDir fs (path ++ ["vendor", "bundle"]) c with
    | (true, c1) => ((true, path ++ ["vendor", "bundle"]), c1)
    | (false, c1) => ((false, []), c1)

/-- `detectPNPM` (src/main.go lines 362-373). -/
def detectPNPM : DetectorFunc := fun fs path _entries nameMap c =>
  if hasName nameMap "pnpm-lock.yaml" = false then ((false, []), c)
  else
    match firstNonEmptyName fs path ["node_modules", ".pnpm-store"] c with
    | (some p, c1) => ((true, p), c1)
    | (none, c1) => ((false, []), c1)

/-- `detectBun` (src/main.go lines 375-386). -/
def detectBun : DetectorFunc := fun fs path _entries nameMap c =>
  if hasName nameMap "bun.lockb" = false then ((false, []), c)
  else
    match firstNonEmptyName fs path ["node_modules", ".bun"] c with
    | (some p, c1) => ((true, p), c1)
    | (none, c1) => ((false, []), c1)

/-- `detectExpo` (src/main.go lines 388-399). -/
def detectExpo : DetectorFunc := fun fs path _entries nameMap c =>
  if (hasName nameMap "app.json" || hasName nameMap "app.config.js") = false then
    ((false, []), c)
  else
    match firstNonEmptyName fs path [".expo", ".expo-shared"] c with
    | (some p, c1) => ((true, p), c1)
    | (none, c1) => ((false, []), c1)

/-- `detectNextJS` (src/main.go lines 401-410). -/
def detectNextJS : DetectorFunc := fun fs path _entries nameMap c =>
  if hasName nameMap "package.json" = false then ((false, []), c)
  else
    match nonEmptyDir fs (path ++ [".next"]) c with
    | (true, c1) => ((true, path ++ [".next"]), c1)
    | (false, c1) => ((false, []), c1)

/-- `detectAngular` (src/main.go lines 412-421). -/
def detectAngular : DetectorFunc := fun fs path _entries nameMap c =>
  if hasName nameMap "angular.json" = false then ((false, []), c)
  else
    match nonEmptyDir fs (path ++ ["dist"]) c with
    | (true, c1) => ((true, path ++ ["dist"]), c1)
    | (false, c1) => ((false, []), c1)

/-- The key loop of `detectUnreal` (src/main.go lines 424-433), modelled like
`cabalLoop`. -/
def unrealLoop (fs : FS) (path : List String) :
    List String → CacheState → Option (List String) × CacheState
  | [], c => (none, c)
  | n :: rest, c =>
    if strEndsWith n ".uproject" then
      match firstNonEmptyName fs path ["Intermediate", "Saved", "Binaries"] c with
      | (some p, c1) => (some p, c1)
      | (none, c1) => unrealLoop fs path rest c1
    else unrealLoop fs path rest c

/-- `detectUnreal` (src/main.go lines 423-435). -/
def detectUnreal : DetectorFunc := fun fs path entries _nameMap c =>
  match unrealLoop fs path (entries.map (fun e => e.name)) c with
  | (some p, c1) => ((true, p), c1)
  | (none, c1) => ((false, []), c1)

/-- `detectUnity` (src/main.go lines 437-448). -/
def detectUnity : DetectorFunc := fun fs path _entries nameMap c =>
  if hasName nameMap "ProjectSettings" = false then ((false, []), c)
  else
    match firstNonEmptyName fs path ["Library", "Temp", "Logs", "obj"] c with
    | (some p, c1) => ((true, p), c1)
    | (none, c1) => ((false, []), c1)

/-- `detectAndroid` (src/main.go lines 450-459). -/
def detectAndroid : DetectorFunc := fun fs path _entries nameMap c =>
  if hasName nameMap "AndroidManifest.xml" = false then ((false, []), c)
  else
    match nonEmptyDir fs (path ++ ["build"]) c with
    | (true, c1) => ((true, path ++ ["build"]), c1)
    | (false, c1) => ((false, []), c1)

/-- `detectFlutter` (src/main.go lines 461-472): prefers `build` over
`.dart_tool`. -/
def detectFlutter : DetectorFunc := fun fs path _entries nameMap c =>
  if hasName nameMap "pubspec.yaml" = false then ((false, []), c)
  else
    match firstNonEmptyName fs path ["build", ".dart_tool"] c with
    | (some p, c1) => ((true, p), c1)
    | (none, c1) => ((false, []), c1)

/-- `detectMix` (src/main.go lines 474-485). -/
def detectMix : DetectorFunc := fun fs path _entries nameMap c =>
  if hasName nameMap "mix.exs" = false then ((false, []), c)
  else
    match firstNonEmptyName fs path ["_build", "deps"] c with
    | (some p, c1) => ((true, p), c1)
    | (none, c1) => ((false, []), c1)

/-- `detectRebar` (src/main.go lines 487-498). -/
def detectRebar : DetectorFunc := fun fs path _entries nameMap c =>
  if hasName nameMap "rebar.config" = false then ((false, []), c)
  else
    match firstNonEmptyName fs path ["_build", "deps"] c with
    | (some p, c1) => ((true, p), c1)
    | (none, c1) => ((false, []), c1)

/-- The detector registry (src/main.go lines 57-88), in source listing order;
the Go map's iteration order is unspecified, which only permutes the result
stream. -/
def detectors : List (String × DetectorFunc) :=
  [("cargo", detectCargo), ("node", detectNode), ("cmake", detectCMake),
   ("maven", detectMaven), ("gradle", detectGradle), ("dotnet", detectDotNet),
   ("python", detectPython), ("d", detectD), ("jai", detectJai),
   ("swiftpm", detectSwiftPM), ("qobs", detectQobs), ("bazel", detectBazel),
   ("meson", detectMeson), ("ninja", detectNinja), ("sbt", detectSBT),
   ("cabal", detectCabal), ("stack", detectStack), ("composer", detectComposer),
   ("bundler", detectBundler), ("pnpm", detectPNPM), ("bun", detectBun),
   ("expo", detectExpo), ("next", detectNextJS), ("angular", detectAngular),
   ("unreal", detectUnreal), ("unity", detectUnity), ("android", detectAndroid),
   ("flutter", detectFlutter), ("mix", detectMix), ("rebar", detectRebar)]

/-- `foundDir` (src/main.go lines 563-566): one discovered artifact. -/
structure FoundDir where
  path : List String
  typ : String
deriving DecidableEq, Repr

/-- The walker's shared mutable state: the directory cache, the contents of
the `results` channel (in emission order of the modelled sequential
execution), and the `dirCount` progress counter. -/
structure WalkState where
  cacheSt : CacheState
  results : List FoundDir
  dirCount : Nat
deriving DecidableEq, Repr

/-- `WalkState` plus ghost observation logs: `visited` records every child
path for which a recursive visit was scheduled (src/main.go lines 545-557),
and `processed` records every directory whose full body reached the counter
increment (src/main.go line 560). -/
structure WalkGhost where
  st : WalkState
  visited : List (List String)
  processed : List (List String)
deriving DecidableEq, Repr

/-- One iteration of the detector loop of `walkDir` (src/main.go lines
519-523): run detector `d`, and append a `FoundDir` if it matched. -/
def detStep (fs : FS) (path : List String) (entries : List DirEntry)
    (nameMap : String → Option DirEntry) (acc : WalkState) (d : String × DetectorFunc) :
    WalkState :=
  let r := d.2 fs path entries nameMap acc.cacheSt
  let acc1 := { acc with cacheSt := r.2 }
  if r.1.1 then { acc1 with results := acc1.results ++ [⟨r.1.2, d.1⟩] } else acc1

/-- The detector loop of `walkDir` (src/main.go lines 519-523): run every
registered detector, appending a `FoundDir` for each match. -/
def runDetectors (fs : FS) (path : List String) (entries : List DirEntry)
    (nameMap : String → Option DirEntry) (st : WalkState) : WalkState :=
  detectors.foldl (detStep fs path entries nameMap) st

/-- The child loop of `walkDir` (src/main.go lines 526-558): skip non-directory
entries, names in the skip set, children whose `lstat` fails, and symlinks;
otherwise schedule a recursive visit (`w`) at depth+1.  The recursive visit is
passed as a function so that the walker itself recurses only on its fuel. -/
def walkChildren (fs : FS) (path : List String) (depth : Nat)
    (w : List String → Nat → WalkGhost → WalkGhost) :
    List DirEntry → WalkGhost → WalkGhost
  | [], g => g
  | e :: rest, g =>
    if e.isDir = false then walkChildren fs path depth w rest g
    else if e.name ∈ skipDirs then walkChildren fs path depth w rest g
    else
      match fs.lstat (path ++ [e.name]) with
      | Except.error _ => walkChildren fs path depth w rest g
      | Except.ok true => walkChildren fs path depth w rest g
      | Except.ok false =>
        walkChildren fs path depth w rest
          (w (path ++ [e.name]) (depth + 1)
            { g with visited := g.visited ++ [path ++ [e.name]] })

/-- `walkDir` (src/main.go lines 500-561), modelled with an explicit fuel that
bounds the recursion (the wrapper `walkDir` below instantiates it with the
remaining depth budget `maxRecursionDepth - depth`, which strictly decreases on
every recursive call).  The body mirrors the source: return at the depth
limit, return on a read error (the directory is skipped), otherwise run all
detectors, schedule the children, and finally increment `dirCount` by one. -/
def walkDirAux (fs : FS) : Nat → List String → Nat → WalkGhost → WalkGhost
  | 0, _, _, g => g
  | fuel + 1, path, depth, g =>
    if maxRecursionDepth ≤ depth then g
    else
      match readDirCached fs path g.st.cacheSt with
      | (Except.error _, c1) => { g with st := { g.st with cacheSt := c1 } }
      | (Except.ok entries, c1) =>
        let st1 := runDetectors fs path entries (mkNameMap entries)
          { g.st with cacheSt := c1 }
        let g1 := walkChildren fs path depth (walkDirAux fs fuel) entries
          { g with st := st1 }
        { g1 with
            st := { g1.st with dirCount := g1.st.dirCount + 1 },
            processed := g1.processed ++ [path] }

/-- `walk(path, depth)`: `walkDirAux` with the remaining depth budget as fuel.
When `depth < maxRecursionDepth` the fuel is positive and the guard inside
`walkDirAux` coincides with the source's `depth >= maxRecursionDepth` check. -/
def walkDir (fs : FS) (path : List String) (depth : Nat) (g : WalkGhost) : WalkGhost :=
  walkDirAux fs (maxRecursionDepth - depth) path depth g

/-- The state at the start of a run: empty cache, no results, zero counter. -/
def initGhost : WalkGhost := ⟨⟨⟨[], []⟩, [], 0⟩, [], []⟩

/-- One whole traversal: `walkDir(root, 0)` from a fresh state
(src/main.go line 617). -/
def runWalk (fs : FS) (root : List String) : WalkGhost :=
  walkDir fs root 0 initGhost

/-- Build a concrete quiescent filesystem from a finite list of directories:
listed paths resolve to their entries, everything else fails to list, and no
path is a symlink. -/
def mkFS (dirs : List (List String × List DirEntry)) : FS where
  readDir := fun p =>
    match lookupPath dirs p with
    | some es => Except.ok es
    | none => Except.error "ENOENT"
  lstat := fun _ => Except.ok false

/-!
## Interleaved executions of `readDirCached`

`dirEntriesCache` is a `sync.Map` accessed by concurrent goroutines.  One call
to `readDirCached` (src/main.go lines 42-52) performs two separately atomic
phases: the `Load` check (lines 43-45), and — only on a miss — the underlying
`os.ReadDir` followed by `Store` (lines 46-51).  Between the two phases other
callers may run.  The model below executes any interleaving of several callers
asking for the same path, with each phase atomic, and counts the underlying
reads. -/

deriving instance DecidableEq for Except

/-- The program counter of one in-flight `readDirCached` call: not yet
started, past the failed `Load` check, or returned with a result. -/
inductive CallerPC where
  | start
  | missed
  | done (r : Except String (List DirEntry))
deriving DecidableEq, Repr

/-- Shared cache plus the per-caller program counters and a count of
underlying `os.ReadDir` calls. -/
structure ConcCache where
  cache : List (List String × List DirEntry)
  reads : Nat
  pcs : List CallerPC
deriving DecidableEq, Repr

/-- Run one atomic phase of caller `i`'s `readDirCached path` call:
from `start`, the `Load` check (lines 43-45); from `missed`, the
`os.ReadDir` plus conditional `Store` (lines 46-51). -/
def concStep (fs : FS) (path : List String) (σ : ConcCache) (i : Nat) : ConcCache :=
  match σ.pcs.get? i with
  | some CallerPC.start =>
    (match lookupPath σ.cache path with
     | some v => { σ with pcs := σ.pcs.set i (CallerPC.done (Except.ok v)) }
     | none => { σ with pcs := σ.pcs.set i CallerPC.missed })
  | some CallerPC.missed =>
    (match fs.readDir path with
     | Except.error e =>
       { σ with reads := σ.reads + 1, pcs := σ.pcs.set i (CallerPC.done (Except.error e)) }
     | Except.ok entries =>
       { σ with reads := σ.reads + 1,
                cache := storePath σ.cache path entries,
                pcs := σ.pcs.set i (CallerPC.done (Except.ok entries)) })
  | _ => σ

/-- Run a schedule: a list of caller indices, each executing its next atomic
phase in turn. -/
def runSched (fs : FS) (path : List String) (sched : List Nat) (σ : ConcCache) : ConcCache :=
  sched.foldl (concStep fs path) σ

/-!
## Concrete filesystems used as inputs
-/

/-- A cargo project: `Cargo.toml` plus a non-empty `target/`. -/
def fsCargo : FS := mkFS
  [(["d"], [⟨"Cargo.toml", false⟩, ⟨"target", true⟩]),
   (["d", "target"], [⟨"debug", true⟩])]

/-- A cargo manifest with no `target/` directory at all. -/
def fsCargoAbsent : FS := mkFS
  [(["d"], [⟨"Cargo.toml", false⟩])]

/-- A cargo manifest with an existing but empty `target/`. -/
def fsCargoEmpty : FS := mkFS
  [(["d"], [⟨"Cargo.toml", false⟩, ⟨"target", true⟩]),
   (["d", "target"], [])]

/-- A CMake build directory: `CMakeCache.txt` plus a non-empty `CMakeFiles/`. -/
def fsCMake : FS := mkFS
  [(["d"], [⟨"CMakeCache.txt", false⟩, ⟨"CMakeFiles", true⟩]),
   (["d", "CMakeFiles"], [⟨"x.tmp", false⟩])]

/-- The concrete scenario of the spec: `proj-a` is a cargo project with a
non-empty `target/`, `proj-b` has `package.json` with an empty
`node_modules/`. -/
def fsTwoProjects : FS := mkFS
  [(["root"], [⟨"proj-a", true⟩, ⟨"proj-b", true⟩]),
   (["root", "proj-a"], [⟨"Cargo.toml", false⟩, ⟨"target", true⟩]),
   (["root", "proj-a", "target"], [⟨"debug", true⟩]),
   (["root", "proj-b"], [⟨"package.json", false⟩, ⟨"node_modules", true⟩]),
   (["root", "proj-b", "node_modules"], [])]

/-- A filesystem where every listing fails (e.g. permission denied at the
root). -/
def fsUnreadable : FS := mkFS []

/-- A .NET project with `app.csproj` and both `bin/` and `obj/` non-empty. -/
def fsDotNetBoth : FS := mkFS
  [(["d"], [⟨"app.csproj", false⟩, ⟨"bin", true⟩, ⟨"obj", true⟩]),
   (["d", "bin"], [⟨"app.exe", false⟩]),
   (["d", "obj"], [⟨"app.o", false⟩])]

/-- A flutter project with both `build/` and `.dart_tool/` non-empty. -/
def fsFlutterBoth : FS := mkFS
  [(["f"], [⟨"pubspec.yaml", false⟩, ⟨"build", true⟩, ⟨".dart_tool", true⟩]),
   (["f", "build"], [⟨"app", false⟩]),
   (["f", ".dart_tool"], [⟨"cfg", false⟩])]

/-- A single-entry directory listing used by the concurrent-cache runs. -/
def oneEntry : List DirEntry := [⟨"x", false⟩]

/-- A filesystem with one readable directory `p`, for the concurrent-cache
runs. -/
def fsOneDir : FS := mkFS [(["p"], oneEntry)]

/-!
## Basic lemmas about the cache
-/

theorem lookupPath_storePath_self {p : List String} {v : List DirEntry} :
    ∀ c : List (List String × List DirEntry), lookupPath (storePath c p v) p = some v := by
  intro c
  induction c with
  | nil => simp [storePath, lookupPath]
  | cons kv rest ih =>
    obtain ⟨k, w⟩ := kv
    by_cases hk : k = p
    · rw [storePath, if_pos hk, lookupPath, if_pos rfl]
    · rw [storePath, if_neg hk, lookupPath, if_neg hk]
      exact ih

/-- A failing `readDirCached` call performs the underlying read, returns the
error and leaves the cache untouched; moreover the path was not in the cache
and the filesystem really answered that error. -/
theorem readDirCached_error {fs : FS} {p : List String} {c c1 : CacheState} {e : String}
    (h : readDirCached fs p c = (Except.error e, c1)) :
    c1 = { c with reads := c.reads ++ [p] } ∧
      lookupPath c.cache p = none ∧ fs.readDir p = Except.error e := by
  unfold readDirCached at h
  rcases hl : lookupPath c.cache p with _ | v
  · rw [hl] at h
    rcases hr : fs.readDir p with er | es
    · rw [hr] at h
      simp only [Prod.mk.injEq, Except.error.injEq] at h
      obtain ⟨he, hc⟩ := h
      subst he
      refine ⟨hc.symm, ?_, ?_⟩ <;> simp [hl, hr]
    · rw [hr] at h
      simp at h
  · rw [hl] at h
    simp at h

/-- A successful `readDirCached` call leaves the result stored in the cache. -/
theorem readDirCached_ok_lookup {fs : FS} {p : List String} {c c1 : CacheState}
    {v : List DirEntry}
    (h : readDirCached fs p c = (Except.ok v, c1)) : lookupPath c1.cache p = some v := by
  unfold readDirCached at h
  rcases hl : lookupPath c.cache p with _ | w
  · rw [hl] at h
    rcases hr : fs.readDir p with er | es
    · rw [hr] at h
      simp at h
    · rw [hr] at h
      simp only [Prod.mk.injEq, Except.ok.injEq] at h
      obtain ⟨he, hc⟩ := h
      subst he
      rw [← hc]
      exact lookupPath_storePath_self _
  · rw [hl] at h
    simp only [Prod.mk.injEq, Except.ok.injEq] at h
    obtain ⟨he, hc⟩ := h
    subst he
    rw [← hc]
    exact hl

/-!
## Invariants of the walker
-/

/-- A path for which the walker may legitimately schedule a recursive visit:
it is some directory's child (last component `n`) whose name is not in the
skip set, and `lstat` succeeded reporting that it is not a symlink. -/
def GoodSched (fs : FS) (q : List String) : Prop :=
  (∃ pre n, q = pre ++ [n] ∧ n ∉ skipDirs) ∧ fs.lstat q = Except.ok false

theorem walkChildren_visited {fs : FS} {path : List String} {depth : Nat}
    {w : List String → Nat → WalkGhost → WalkGhost}
    (hw : ∀ p d g q, q ∈ (w p d g).visited → q ∈ g.visited ∨ GoodSched fs q) :
    ∀ (entries : List DirEntry) (g : WalkGhost) (q : List String),
      q ∈ (walkChildren fs path depth w entries g).visited →
        q ∈ g.visited ∨ GoodSched fs q := by
  intro entries
  induction entries with
  | nil =>
    intro g q h
    exact Or.inl h
  | cons e rest ih =>
    intro g q h
    by_cases hd : e.isDir = false
    · rw [walkChildren, if_pos hd] at h
      exact ih g q h
    · by_cases hs : e.name ∈ skipDirs
      · rw [walkChildren, if_neg hd, if_pos hs] at h
        exact ih g q h
      · rcases hl : fs.lstat (path ++ [e.name]) with er | b
        · rw [walkChildren, if_neg hd, if_neg hs, hl] at h
          exact ih g q h
        · cases b with
          | true =>
            rw [walkChildren, if_neg hd, if_neg hs, hl] at h
            exact ih g q h
          | false =>
            rw [walkChildren, if_neg hd, if_neg hs, hl] at h
            rcases ih _ q h with hq | hq
            · rcases hw _ _ _ _ hq with hq1 | hq1
              · simp only [List.mem_append, List.mem_singleton] at hq1
                rcases hq1 with hq2 | hq2
                · exact Or.inl hq2
                · exact Or.inr ⟨⟨path, e.name, hq2, hs⟩, hq2 ▸ hl⟩
              · exact Or.inr hq1
            · exact Or.inr hq

theorem walkDirAux_visited :
    ∀ (fuel : Nat) (fs : FS) (path : List String) (depth : Nat) (g : WalkGhost)
      (q : List String),
      q ∈ (walkDirAux fs fuel path depth g).visited → q ∈ g.visited ∨ GoodSched fs q := by
  intro fuel
  induction fuel with
  | zero =>
    intro fs path depth g q h
    exact Or.inl h
  | succ n ih =>
    intro fs path depth g q h
    rw [walkDirAux] at h
    by_cases hd : maxRecursionDepth ≤ depth
    · rw [if_pos hd] at h
      exact Or.inl h
    · rw [if_neg hd] at h
      rcases hr : readDirCached fs path g.st.cacheSt with ⟨res, c1⟩
      rcases res with e | entries
      · rw [hr] at h
        exact Or.inl h
      · rw [hr] at h
        simp only at h
        have h2 := walkChildren_visited (fun p d g1 q1 hq1 => ih fs p d g1 q1 hq1) entries
          ⟨runDetectors fs path entries (mkNameMap entries)
            ⟨c1, g.st.results, g.st.dirCount⟩, g.visited, g.processed⟩ q h
        simpa using h2

theorem detStep_dirCount {fs : FS} {path : List String} {entries : List DirEntry}
    {nm : String → Option DirEntry} {acc : WalkState} {d : String × DetectorFunc} :
    (detStep fs path entries nm acc d).dirCount = acc.dirCount := by
  by_cases h : (d.2 fs path entries nm acc.cacheSt).1.1 <;> simp [detStep, h]

theorem foldl_detStep_dirCount {fs : FS} {path : List String} {entries : List DirEntry}
    {nm : String → Option DirEntry} :
    ∀ (ds : List (String × DetectorFunc)) (st : WalkState),
      (ds.foldl (detStep fs path entries nm) st).dirCount = st.dirCount := by
  intro ds
  induction ds with
  | nil => intro st; rfl
  | cons d rest ih =>
    intro st
    rw [List.foldl_cons, ih, detStep_dirCount]

theorem runDetectors_dirCount {fs : FS} {path : List String} {entries : List DirEntry}
    {nm : String → Option DirEntry} {st : WalkState} :
    (runDetectors fs path entries nm st).dirCount = st.dirCount :=
  foldl_detStep_dirCount detectors st

theorem detStep_count {fs : FS} {path : List String} {entries : List DirEntry}
    {nm : String → Option DirEntry} {acc : WalkState} {d : String × DetectorFunc}
    {t : String} :
    (detStep fs path entries nm acc d).results.countP (fun r => r.typ == t)
      ≤ acc.results.countP (fun r => r.typ == t) + (if d.1 == t then 1 else 0) := by
  by_cases h : (d.2 fs path entries nm acc.cacheSt).1.1
  · simp only [detStep, h, if_true, List.countP_append, List.countP_cons, List.countP_nil]
    split <;> omega
  · simp only [detStep, h, if_false]
    simp

theorem foldl_detStep_count {fs : FS} {path : List String} {entries : List DirEntry}
    {nm : String → Option DirEntry} :
    ∀ (ds : List (String × DetectorFunc)) (st : WalkState) (t : String),
      ((ds.foldl (detStep fs path entries nm) st).results.countP (fun r => r.typ == t))
        ≤ st.results.countP (fun r => r.typ == t)
            + (ds.map Prod.fst).countP (fun n => n == t) := by
  intro ds
  induction ds with
  | nil => intro st t; simp
  | cons d rest ih =>
    intro st t
    rw [List.foldl_cons, List.map_cons, List.countP_cons]
    calc ((rest.foldl (detStep fs path entries nm) (detStep fs path entries nm st d)).results.countP
            (fun r => r.typ == t))
        ≤ (detStep fs path entries nm st d).results.countP (fun r => r.typ == t)
            + (rest.map Prod.fst).countP (fun n => n == t) := ih _ t
      _ ≤ (st.results.countP (fun r => r.typ == t) + (if d.1 == t then 1 else 0))
            + (rest.map Prod.fst).countP (fun n => n == t) :=
          Nat.add_le_add_right detStep_count _
      _ ≤ st.results.countP (fun r => r.typ == t)
            + ((rest.map Prod.fst).countP (fun n => n == t)
              + (if (fun n => n == t) d.1 = true then 1 else 0)) := by
          split <;> omega

theorem walkChildren_lockstep {fs : FS} {path : List String} {depth : Nat}
    {w : List String → Nat → WalkGhost → WalkGhost}
    (hw : ∀ p d g, (w p d g).st.dirCount + g.processed.length
      = g.st.dirCount + (w p d g).processed.length) :
    ∀ (entries : List DirEntry) (g : WalkGhost),
      (walkChildren fs path depth w entries g).st.dirCount + g.processed.length
        = g.st.dirCount + (walkChildren fs path depth w entries g).processed.length := by
  intro entries
  induction entries with
  | nil => intro g; rfl
  | cons e rest ih =>
    intro g
    by_cases hd : e.isDir = false
    · rw [walkChildren, if_pos hd]
      exact ih g
    · by_cases hs : e.name ∈ skipDirs
      · rw [walkChildren, if_neg hd, if_pos hs]
        exact ih g
      · rcases hl : fs.lstat (path ++ [e.name]) with er | b
        · rw [walkChildren, if_neg hd, if_neg hs, hl]
          exact ih g
        · cases b with
          | true =>
            rw [walkChildren, if_neg hd, if_neg hs, hl]
            exact ih g
          | false =>
            rw [walkChildren, if_neg hd, if_neg hs, hl]
            have h1 := hw (path ++ [e.name]) (depth + 1)
              ⟨g.st, g.visited ++ [path ++ [e.name]], g.processed⟩
            have h2 := ih (w (path ++ [e.name]) (depth + 1)
              ⟨g.st, g.visited ++ [path ++ [e.name]], g.processed⟩)
            dsimp only at h1 h2 ⊢
            omega

theorem walkDirAux_lockstep :
    ∀ (fuel : Nat) (fs : FS) (path : List String) (depth : Nat) (g : WalkGhost),
      (walkDirAux fs fuel path depth g).st.dirCount + g.processed.length
        = g.st.dirCount + (walkDirAux fs fuel path depth g).processed.length := by
  intro fuel
  induction fuel with
  | zero => intro fs path depth g; rfl
  | succ n ih =>
    intro fs path depth g
    rw [walkDirAux]
    by_cases hd : maxRecursionDepth ≤ depth
    · rw [if_pos hd]
    · rw [if_neg hd]
      rcases hr : readDirCached fs path g.st.cacheSt with ⟨res, c1⟩
      rcases res with e | entries
      · rfl
      · simp only
        have h1 := @walkChildren_lockstep fs path depth (walkDirAux fs n)
          (fun p d g1 => ih fs p d g1) entries
          ⟨runDetectors fs path entries (mkNameMap entries)
            ⟨c1, g.st.results, g.st.dirCount⟩, g.visited, g.processed⟩
        have h2 : (runDetectors fs path entries (mkNameMap entries)
            ⟨c1, g.st.results, g.st.dirCount⟩).dirCount = g.st.dirCount := by
          rw [runDetectors_dirCount]
        dsimp only at h1 h2 ⊢
        simp only [List.length_append, List.length_singleton]
        omega

/-!
## The detector pass at one directory

Lemmas describing one `runDetectors` pass over arbitrary inputs: how the
per-type record count evolves along the fold, and that a detector's
non-emptiness probes only affect the cache at the probed path (so the probes
of the detectors that run earlier in the pass cannot change what a later
detector sees at a different path).
-/

theorem lookupPath_storePath {p q : List String} {v : List DirEntry} :
    ∀ c : List (List String × List DirEntry),
      lookupPath (storePath c p v) q = if p = q then some v else lookupPath c q := by
  intro c
  induction c with
  | nil => simp [storePath, lookupPath]
  | cons kv rest ih =>
    obtain ⟨k, w⟩ := kv
    by_cases hk : k = p
    · rw [storePath, if_pos hk, lookupPath, lookupPath]
      by_cases hq : p = q
      · rw [if_pos hq, if_pos hq]
      · rw [if_neg hq, if_neg hq, if_neg (by rw [hk]; exact hq)]
    · rw [storePath, if_neg hk, lookupPath, lookupPath]
      by_cases hq : k = q
      · rw [if_pos hq, if_pos hq, if_neg (by intro h; exact hk (h.trans hq.symm ▸ rfl))]
      · rw [if_neg hq, if_neg hq, ih]

/-- `readDirCached` changes the cache only at the path it was asked about. -/
theorem readDirCached_lookup_frame {fs : FS} {p q : List String} {c : CacheState}
    (h : q ≠ p) :
    lookupPath ((readDirCached fs p c).2).cache q = lookupPath c.cache q := by
  unfold readDirCached
  rcases hl : lookupPath c.cache p with _ | v
  · rcases hr : fs.readDir p with er | es
    · rfl
    · show lookupPath (storePath c.cache p es) q = lookupPath c.cache q
      rw [lookupPath_storePath, if_neg (fun hpq => h hpq.symm)]
  · rfl

/-- `nonEmptyDir` changes the cache only at the probed path. -/
theorem nonEmptyDir_lookup_frame {fs : FS} {p q : List String} {c : CacheState}
    (h : q ≠ p) :
    lookupPath ((nonEmptyDir fs p c).2).cache q = lookupPath c.cache q := by
  unfold nonEmptyDir
  rcases hr : readDirCached fs p c with ⟨res, c1⟩
  have h1 := @readDirCached_lookup_frame fs p q c h
  rw [hr] at h1
  cases res <;> exact h1

/-- The boolean a `nonEmptyDir` probe returns is determined by the filesystem
and the cache's content at the probed path alone. -/
theorem nonEmptyDir_congr {fs : FS} {p : List String} {c c1 : CacheState}
    (h : lookupPath c.cache p = lookupPath c1.cache p) :
    (nonEmptyDir fs p c).1 = (nonEmptyDir fs p c1).1 := by
  unfold nonEmptyDir readDirCached
  rw [h]
  rcases lookupPath c1.cache p with _ | v
  · rcases fs.readDir p with er | es <;> rfl
  · rfl

/-- `detectCargo` touches the cache only at `path ++ ["target"]`. -/
theorem detectCargo_lookup_frame {fs : FS} {path : List String} {entries : List DirEntry}
    {nm : String → Option DirEntry} {c : CacheState} {q : List String}
    (h : q ≠ path ++ ["target"]) :
    lookupPath ((detectCargo fs path entries nm c).2).cache q = lookupPath c.cache q := by
  unfold detectCargo
  by_cases hm : hasName nm "Cargo.toml" = false
  · rw [if_pos hm]
  · rw [if_neg hm]
    rcases hne : nonEmptyDir fs (path ++ ["target"]) c with ⟨b, c1⟩
    have h1 := @nonEmptyDir_lookup_frame fs (path ++ ["target"]) q c h
    rw [hne] at h1
    cases b <;> exact h1

/-- `detectNode` touches the cache only at `path ++ ["node_modules"]`. -/
theorem detectNode_lookup_frame {fs : FS} {path : List String} {entries : List DirEntry}
    {nm : String → Option DirEntry} {c : CacheState} {q : List String}
    (h : q ≠ path ++ ["node_modules"]) :
    lookupPath ((detectNode fs path entries nm c).2).cache q = lookupPath c.cache q := by
  unfold detectNode
  by_cases hm : hasName nm "package.json" = false
  · rw [if_pos hm]
  · rw [if_neg hm]
    rcases hne : nonEmptyDir fs (path ++ ["node_modules"]) c with ⟨b, c1⟩
    have h1 := @nonEmptyDir_lookup_frame fs (path ++ ["node_modules"]) q c h
    rw [hne] at h1
    cases b <;> exact h1

/-- The cache state a detector-loop iteration hands to the next iteration is
exactly the one the detector returned. -/
theorem detStep_cacheSt {fs : FS} {path : List String} {entries : List DirEntry}
    {nm : String → Option DirEntry} {st : WalkState} {d : String × DetectorFunc} :
    (detStep fs path entries nm st d).cacheSt = (d.2 fs path entries nm st.cacheSt).2 := by
  by_cases h : (d.2 fs path entries nm st.cacheSt).1.1 <;> simp [detStep, h]

/-- One detector-loop iteration adds one record of the detector's own type
when it fired, and no record otherwise. -/
theorem detStep_count_eq {fs : FS} {path : List String} {entries : List DirEntry}
    {nm : String → Option DirEntry} {st : WalkState} {d : String × DetectorFunc}
    {t : String} :
    (detStep fs path entries nm st d).results.countP (fun r => r.typ == t)
      = st.results.countP (fun r => r.typ == t)
        + (if (d.2 fs path entries nm st.cacheSt).1.1 && (d.1 == t) then 1 else 0) := by
  by_cases h : (d.2 fs path entries nm st.cacheSt).1.1
  · simp only [detStep, h, if_true, Bool.true_and, List.countP_append, List.countP_cons,
      List.countP_nil]
    by_cases ht : (d.1 == t) = true <;> simp [ht]
  · simp [detStep, h]

theorem detStep_mem_mono {fs : FS} {path : List String} {entries : List DirEntry}
    {nm : String → Option DirEntry} {st : WalkState} {d : String × DetectorFunc}
    {r : FoundDir} (h : r ∈ st.results) :
    r ∈ (detStep fs path entries nm st d).results := by
  by_cases hf : (d.2 fs path entries nm st.cacheSt).1.1 <;> simp [detStep, hf, h]

/-- A fired detector's record is in the results after its loop iteration. -/
theorem detStep_mem_fired {fs : FS} {path : List String} {entries : List DirEntry}
    {nm : String → Option DirEntry} {st : WalkState} {d : String × DetectorFunc}
    (h : (d.2 fs path entries nm st.cacheSt).1.1 = true) :
    (⟨(d.2 fs path entries nm st.cacheSt).1.2, d.1⟩ : FoundDir)
      ∈ (detStep fs path entries nm st d).results := by
  simp [detStep, h]

theorem foldl_detStep_mem_mono {fs : FS} {path : List String} {entries : List DirEntry}
    {nm : String → Option DirEntry} {r : FoundDir} :
    ∀ (ds : List (String × DetectorFunc)) (st : WalkState), r ∈ st.results →
      r ∈ (ds.foldl (detStep fs path entries nm) st).results := by
  intro ds
  induction ds with
  | nil => intro st h; exact h
  | cons d rest ih =>
    intro st h
    rw [List.foldl_cons]
    exact ih _ (detStep_mem_mono h)

/-- Detectors whose registered name is not `t` never change the count of
`t`-typed records, fired or not. -/
theorem foldl_detStep_count_zero {fs : FS} {path : List String} {entries : List DirEntry}
    {nm : String → Option DirEntry} {t : String} :
    ∀ (ds : List (String × DetectorFunc)) (st : WalkState),
      (ds.map Prod.fst).countP (fun n => n == t) = 0 →
      (ds.foldl (detStep fs path entries nm) st).results.countP (fun r => r.typ == t)
        = st.results.countP (fun r => r.typ == t) := by
  intro ds
  induction ds with
  | nil => intro st _; rfl
  | cons d rest ih =>
    intro st h
    rw [List.map_cons, List.countP_cons] at h
    have hname : (d.1 == t) = false := by
      by_cases hd : (d.1 == t) = true
      · rw [if_pos hd] at h; omega
      · exact Bool.not_eq_true _ ▸ hd
    rw [List.foldl_cons, ih _ (by omega), detStep_count_eq, hname, Bool.and_false]
    rfl

/-- `detectCargo` fires exactly when `Cargo.toml` is present and the `target`
probe is non-empty, and then reports `path ++ ["target"]` — the cache
directory. -/
theorem detectCargo_fire {fs : FS} {path : List String} {entries : List DirEntry}
    {nm : String → Option DirEntry} {c : CacheState}
    (h1 : hasName nm "Cargo.toml" = true)
    (h2 : (nonEmptyDir fs (path ++ ["target"]) c).1 = true) :
    (detectCargo fs path entries nm c).1 = (true, path ++ ["target"]) := by
  unfold detectCargo
  rw [if_neg (by simp [h1])]
  rcases hne : nonEmptyDir fs (path ++ ["target"]) c with ⟨b, c1⟩
  rw [hne] at h2
  cases b
  · exact absurd h2 (by simp)
  · rfl

theorem detectCargo_nofire {fs : FS} {path : List String} {entries : List DirEntry}
    {nm : String → Option DirEntry} {c : CacheState}
    (h : hasName nm "Cargo.toml" = false
      ∨ (nonEmptyDir fs (path ++ ["target"]) c).1 = false) :
    (detectCargo fs path entries nm c).1.1 = false := by
  unfold detectCargo
  by_cases hm : hasName nm "Cargo.toml" = false
  · rw [if_pos hm]
  · rw [if_neg hm]
    rcases hne : nonEmptyDir fs (path ++ ["target"]) c with ⟨b, c1⟩
    cases b
    · rfl
    · rcases h with h | h
      · exact absurd h hm
      · rw [hne] at h
        exact absurd h (by simp)

/-- `detectCMake` fires exactly when `CMakeCache.txt` and `CMakeFiles` are
present and the `CMakeFiles` probe is non-empty, and then reports `path`
itself — the project directory, not the cache directory. -/
theorem detectCMake_fire {fs : FS} {path : List String} {entries : List DirEntry}
    {nm : String → Option DirEntry} {c : CacheState}
    (h1 : hasName nm "CMakeCache.txt" = true) (h2 : hasName nm "CMakeFiles" = true)
    (h3 : (nonEmptyDir fs (path ++ ["CMakeFiles"]) c).1 = true) :
    (detectCMake fs path entries nm c).1 = (true, path) := by
  unfold detectCMake
  rw [if_neg (by simp [h1, h2])]
  rcases hne : nonEmptyDir fs (path ++ ["CMakeFiles"]) c with ⟨b, c1⟩
  rw [hne] at h3
  cases b
  · exact absurd h3 (by simp)
  · rfl

theorem detectCMake_nofire {fs : FS} {path : List String} {entries : List DirEntry}
    {nm : String → Option DirEntry} {c : CacheState}
    (h : hasName nm "CMakeCache.txt" = false ∨ hasName nm "CMakeFiles" = false
      ∨ (nonEmptyDir fs (path ++ ["CMakeFiles"]) c).1 = false) :
    (detectCMake fs path entries nm c).1.1 = false := by
  unfold detectCMake
  by_cases hm : (hasName nm "CMakeCache.txt" && hasName nm "CMakeFiles") = false
  · rw [if_pos hm]
  · rw [if_neg hm]
    rcases hne : nonEmptyDir fs (path ++ ["CMakeFiles"]) c with ⟨b, c1⟩
    cases b
    · rfl
    · rcases h with h | h | h
      · exact absurd (by simp [h]) hm
      · exact absurd (by simp [h]) hm
      · rw [hne] at h
        exact absurd h (by simp)

/-- On a cache hit `readDirCached` returns the stored entries and leaves the
state untouched. -/
theorem readDirCached_hit {fs : FS} {p : List String} {c : CacheState} {v : List DirEntry}
    (h : lookupPath c.cache p = some v) : readDirCached fs p c = (Except.ok v, c) := by
  unfold readDirCached
  rw [h]

/-- The registry maps each artifact-type name to one detector: the names are
pairwise distinct. -/
theorem detectorNames_nodup : (detectors.map Prod.fst).Nodup := by decide

theorem detectorNames_count_le_one (t : String) :
    (detectors.map Prod.fst).countP (fun n => n == t) ≤ 1 := by
  have h := List.nodup_iff_count_le_one.mp detectorNames_nodup t
  simpa [List.count] using h

/-!
## The claims
-/

/-- C1 (counterexample): the claim says every FoundArtifact points at the
cache (artifact) directory itself, "not D".  On a directory `d` holding
`CMakeCache.txt` and a non-empty `CMakeFiles/`, the traversal emits exactly
one cmake FoundArtifact whose path is `d` itself — not `d/CMakeFiles`. -/
theorem cmake_reports_project_dir_not_cachedir :
    (runWalk fsCMake ["d"]).st.results = [⟨["d"], "cmake"⟩] ∧
      (["d"] : List String) ≠ ["d", "CMakeFiles"] := by
  constructor
  · decide
  · decide

/-- C1 (amended), universally: in one detector pass over an arbitrary
directory `path` with arbitrary entries, name map and walk state — the pass
the walker runs exactly once per visited directory —
(1) if `Cargo.toml` is present and the `target` probe is non-empty, exactly
one cargo FoundArtifact is added, and a record pointing at the cache
directory `path/target` is in the results;
(2) if the manifest is absent or the probe is empty (absent or empty cache
directory), the pass adds no cargo FoundArtifact;
(3) if `CMakeCache.txt` and `CMakeFiles` are present and the `CMakeFiles`
probe is non-empty, exactly one cmake FoundArtifact is added, and its record
points at `path` itself — not at `path/CMakeFiles`;
(4) if a cmake manifest is missing or the probe is empty, no cmake
FoundArtifact is added;
(5) the four end-to-end runs on concrete trees illustrate the same facts on
whole traversals. -/
theorem one_artifact_cargo_cache_dir_cmake_project_dir (fs : FS) (path : List String)
    (entries : List DirEntry) (nm : String → Option DirEntry) (st : WalkState) :
    (hasName nm "Cargo.toml" = true →
     (nonEmptyDir fs (path ++ ["target"]) st.cacheSt).1 = true →
       (runDetectors fs path entries nm st).results.countP (fun r => r.typ == "cargo")
           = st.results.countP (fun r => r.typ == "cargo") + 1 ∧
         (⟨path ++ ["target"], "cargo"⟩ : FoundDir)
           ∈ (runDetectors fs path entries nm st).results) ∧
    ((hasName nm "Cargo.toml" = false
        ∨ (nonEmptyDir fs (path ++ ["target"]) st.cacheSt).1 = false) →
       (runDetectors fs path entries nm st).results.countP (fun r => r.typ == "cargo")
         = st.results.countP (fun r => r.typ == "cargo")) ∧
    (hasName nm "CMakeCache.txt" = true → hasName nm "CMakeFiles" = true →
     (nonEmptyDir fs (path ++ ["CMakeFiles"]) st.cacheSt).1 = true →
       (runDetectors fs path entries nm st).results.countP (fun r => r.typ == "cmake")
           = st.results.countP (fun r => r.typ == "cmake") + 1 ∧
         (⟨path, "cmake"⟩ : FoundDir) ∈ (runDetectors fs path entries nm st).results) ∧
    ((hasName nm "CMakeCache.txt" = false ∨ hasName nm "CMakeFiles" = false
        ∨ (nonEmptyDir fs (path ++ ["CMakeFiles"]) st.cacheSt).1 = false) →
       (runDetectors fs path entries nm st).results.countP (fun r => r.typ == "cmake")
         = st.results.countP (fun r => r.typ == "cmake")) ∧
    ((runWalk fsCargo ["d"]).st.results = [⟨["d", "target"], "cargo"⟩] ∧
     (runWalk fsCMake ["d"]).st.results = [⟨["d"], "cmake"⟩] ∧
     (runWalk fsCargoAbsent ["d"]).st.results = [] ∧
     (runWalk fsCargoEmpty ["d"]).st.results = []) := by
  have hne1 : path ++ ["CMakeFiles"] ≠ path ++ ["target"] := by
    intro h
    have h2 := List.append_cancel_left h
    simp at h2
  have hne2 : path ++ ["CMakeFiles"] ≠ path ++ ["node_modules"] := by
    intro h
    have h2 := List.append_cancel_left h
    simp at h2
  refine ⟨?_, ?_, ?_, ?_, by refine ⟨?_, ?_, ?_, ?_⟩ <;> decide⟩
  · intro h1 h2
    have hfire : (detectCargo fs path entries nm st.cacheSt).1.1 = true := by
      rw [detectCargo_fire h1 h2]
    have htgt : (detectCargo fs path entries nm st.cacheSt).1.2 = path ++ ["target"] := by
      rw [detectCargo_fire h1 h2]
    constructor
    · unfold runDetectors detectors
      rw [List.foldl_cons, foldl_detStep_count_zero _ _ (by decide), detStep_count_eq,
        hfire]
      rfl
    · have hm := @detStep_mem_fired fs path entries nm st ("cargo", detectCargo) hfire
      rw [htgt] at hm
      unfold runDetectors detectors
      rw [List.foldl_cons]
      exact foldl_detStep_mem_mono _ _ hm
  · intro h
    have hnf : (detectCargo fs path entries nm st.cacheSt).1.1 = false :=
      detectCargo_nofire h
    unfold runDetectors detectors
    rw [List.foldl_cons, foldl_detStep_count_zero _ _ (by decide), detStep_count_eq, hnf]
    rfl
  · intro h1 h2 h3
    have hl1 : lookupPath
        ((detStep fs path entries nm st ("cargo", detectCargo)).cacheSt).cache
          (path ++ ["CMakeFiles"])
        = lookupPath st.cacheSt.cache (path ++ ["CMakeFiles"]) := by
      rw [detStep_cacheSt]
      exact @detectCargo_lookup_frame fs path entries nm st.cacheSt
        (path ++ ["CMakeFiles"]) hne1
    have hl2 : lookupPath
        ((detStep fs path entries nm (detStep fs path entries nm st ("cargo", detectCargo))
            ("node", detectNode)).cacheSt).cache (path ++ ["CMakeFiles"])
        = lookupPath
            ((detStep fs path entries nm st ("cargo", detectCargo)).cacheSt).cache
            (path ++ ["CMakeFiles"]) := by
      rw [detStep_cacheSt]
      exact @detectNode_lookup_frame fs path entries nm
        (detStep fs path entries nm st ("cargo", detectCargo)).cacheSt
        (path ++ ["CMakeFiles"]) hne2
    have h3' : (nonEmptyDir fs (path ++ ["CMakeFiles"])
        (detStep fs path entries nm (detStep fs path entries nm st ("cargo", detectCargo))
          ("node", detectNode)).cacheSt).1 = true :=
      (nonEmptyDir_congr (hl2.trans hl1)).trans h3
    have hfire : (detectCMake fs path entries nm
        (detStep fs path entries nm (detStep fs path entries nm st ("cargo", detectCargo))
          ("node", detectNode)).cacheSt).1.1 = true := by
      rw [detectCMake_fire h1 h2 h3']
    have htgt : (detectCMake fs path entries nm
        (detStep fs path entries nm (detStep fs path entries nm st ("cargo", detectCargo))
          ("node", detectNode)).cacheSt).1.2 = path := by
      rw [detectCMake_fire h1 h2 h3']
    constructor
    · unfold runDetectors detectors
      rw [List.foldl_cons, List.foldl_cons, List.foldl_cons,
        foldl_detStep_count_zero _ _ (by decide), detStep_count_eq, hfire,
        @detStep_count_eq fs path entries nm _ ("node", detectNode) _,
        @detStep_count_eq fs path entries nm _ ("cargo", detectCargo) _]
      simp
    · have hm := @detStep_mem_fired fs path entries nm
        (detStep fs path entries nm (detStep fs path entries nm st
          ("cargo", detectCargo)) ("node", detectNode)) ("cmake", detectCMake) hfire
      rw [htgt] at hm
      unfold runDetectors detectors
      rw [List.foldl_cons, List.foldl_cons, List.foldl_cons]
      exact foldl_detStep_mem_mono _ _ hm
  · intro h
    have hnf : (detectCMake fs path entries nm
        (detStep fs path entries nm (detStep fs path entries nm st ("cargo", detectCargo))
          ("node", detectNode)).cacheSt).1.1 = false := by
      rcases h with h | h | h
      · exact detectCMake_nofire (Or.inl h)
      · exact detectCMake_nofire (Or.inr (Or.inl h))
      · refine detectCMake_nofire (Or.inr (Or.inr ?_))
        have hl1 : lookupPath
            ((detStep fs path entries nm st ("cargo", detectCargo)).cacheSt).cache
              (path ++ ["CMakeFiles"])
            = lookupPath st.cacheSt.cache (path ++ ["CMakeFiles"]) := by
          rw [detStep_cacheSt]
          exact @detectCargo_lookup_frame fs path entries nm st.cacheSt
            (path ++ ["CMakeFiles"]) hne1
        have hl2 : lookupPath
            ((detStep fs path entries nm (detStep fs path entries nm st
                ("cargo", detectCargo)) ("node", detectNode)).cacheSt).cache
              (path ++ ["CMakeFiles"])
            = lookupPath
                ((detStep fs path entries nm st ("cargo", detectCargo)).cacheSt).cache
                (path ++ ["CMakeFiles"]) := by
          rw [detStep_cacheSt]
          exact @detectNode_lookup_frame fs path entries nm
            (detStep fs path entries nm st ("cargo", detectCargo)).cacheSt
            (path ++ ["CMakeFiles"]) hne2
        exact (nonEmptyDir_congr (hl2.trans hl1)).trans h
    unfold runDetectors detectors
    rw [List.foldl_cons, List.foldl_cons, List.foldl_cons,
      foldl_detStep_count_zero _ _ (by decide), detStep_count_eq, hnf,
      @detStep_count_eq fs path entries nm _ ("node", detectNode) _,
      @detStep_count_eq fs path entries nm _ ("cargo", detectCargo) _]
    simp

theorem one_artifact_cargo_cache_dir_cmake_project_dir_witness :
    (runDetectors fsCargo ["d"] [⟨"Cargo.toml", false⟩, ⟨"target", true⟩]
        (mkNameMap [⟨"Cargo.toml", false⟩, ⟨"target", true⟩])
        ⟨⟨[], []⟩, [], 0⟩).results.countP (fun r => r.typ == "cargo")
      = (⟨⟨[], []⟩, [], 0⟩ : WalkState).results.countP (fun r => r.typ == "cargo") + 1 ∧
    (⟨["d", "target"], "cargo"⟩ : FoundDir)
      ∈ (runDetectors fsCargo ["d"] [⟨"Cargo.toml", false⟩, ⟨"target", true⟩]
          (mkNameMap [⟨"Cargo.toml", false⟩, ⟨"target", true⟩])
          ⟨⟨[], []⟩, [], 0⟩).results :=
  (one_artifact_cargo_cache_dir_cmake_project_dir fsCargo ["d"]
    [⟨"Cargo.toml", false⟩, ⟨"target", true⟩]
    (mkNameMap [⟨"Cargo.toml", false⟩, ⟨"target", true⟩])
    ⟨⟨[], []⟩, [], 0⟩).1 (by decide) (by decide)

/-- C2 (counterexample): the claim says a listing failure is cached and never
retried.  In fact a failed `readDirCached` stores nothing: calling it twice on
an unreadable path performs the underlying read twice (the reads log grows to
two entries) while the cache stays empty. -/
theorem readDir_error_is_reattempted :
    (readDirCached fsUnreadable ["p"] ⟨[], []⟩).1 = Except.error "ENOENT" ∧
    (readDirCached fsUnreadable ["p"]
        (readDirCached fsUnreadable ["p"] ⟨[], []⟩).2).2.reads = [["p"], ["p"]] ∧
    (readDirCached fsUnreadable ["p"]
        (readDirCached fsUnreadable ["p"] ⟨[], []⟩).2).2.cache = [] := by
  refine ⟨?_, ?_, ?_⟩ <;> decide

/-- C2 (amended): a failed `readDirCached` leaves the cache unchanged (the
error is not stored), logs the one underlying read it attempted, and a later
call for the same path re-attempts the listing, obtaining the same error from
the unchanged filesystem; the failure is not fatal: `walkDir` returns
immediately, skipping the directory without emitting results, scheduling
children, or incrementing the counter. -/
theorem readDir_error_not_cached_and_skipped (fs : FS) (p : List String)
    (c c1 : CacheState) (e : String) (fuel depth : Nat) (g : WalkGhost)
    (h : readDirCached fs p c = (Except.error e, c1))
    (hdepth : depth < maxRecursionDepth) (hg : g.st.cacheSt = c) :
    c1.cache = c.cache ∧
    c1.reads = c.reads ++ [p] ∧
    readDirCached fs p c1 = (Except.error e, ⟨c1.cache, c1.reads ++ [p]⟩) ∧
    walkDirAux fs (fuel + 1) p depth g
      = ⟨⟨c1, g.st.results, g.st.dirCount⟩, g.visited, g.processed⟩ := by
  obtain ⟨hc1, hl, hr⟩ := readDirCached_error h
  subst hc1
  refine ⟨rfl, rfl, ?_, ?_⟩
  · unfold readDirCached
    rw [show lookupPath ({ c with reads := c.reads ++ [p] } : CacheState).cache p
          = none from hl, hr]
  · rw [walkDirAux, if_neg (Nat.not_le.mpr hdepth), hg, h]

theorem readDir_error_not_cached_and_skipped_witness :
    walkDirAux fsUnreadable (999 + 1) ["p"] 0 initGhost
      = ⟨⟨⟨[], [["p"]]⟩, [], 0⟩, [], []⟩ :=
  (readDir_error_not_cached_and_skipped fsUnreadable ["p"] ⟨[], []⟩ ⟨[], [["p"]]⟩
    "ENOENT" 999 0 initGhost (by decide) (by decide) rfl).2.2.2

/-- C3 (counterexample): the claim says the traversal never reads the contents
of a directory whose name is in the skip-set.  In fact the cargo detector's
non-emptiness probe lists `d/target`, and `"target"` is in the skip-set: the
underlying-read log of the traversal contains the skip-named directory. -/
theorem detector_probe_reads_skipset_dir :
    ["d", "target"] ∈ (runWalk fsCargo ["d"]).st.cacheSt.reads ∧
      "target" ∈ skipDirs := by
  constructor
  · decide
  · decide

/-- C3 (amended): the Walker never schedules a recursive visit for a child
entry whose name is in the skip-set — every scheduled visit is a child whose
last component is outside the skip-set — although a detector's non-emptiness
probe may still list a skip-named subdirectory's entries. -/
theorem skipset_children_never_scheduled (fuel : Nat) (fs : FS) (path : List String)
    (depth : Nat) (g : WalkGhost) (q : List String)
    (h : q ∈ (walkDirAux fs fuel path depth g).visited) :
    q ∈ g.visited ∨ ∃ pre n, q = pre ++ [n] ∧ n ∉ skipDirs := by
  rcases walkDirAux_visited fuel fs path depth g q h with h1 | h1
  · exact Or.inl h1
  · exact Or.inr h1.1

theorem skipset_children_never_scheduled_witness :
    ["root", "proj-a"] ∈ initGhost.visited ∨
      ∃ pre n, ["root", "proj-a"] = pre ++ [n] ∧ n ∉ skipDirs :=
  skipset_children_never_scheduled 1000 fsTwoProjects ["root"] 0 initGhost
    ["root", "proj-a"] (by decide)

/-- C4: the concrete scenario — `proj-a` has `Cargo.toml` and a non-empty
`target/`, `proj-b` has `package.json` and an empty `node_modules/` — yields
exactly one FoundArtifact, `{path: root/proj-a/target, artifactType: cargo}`,
and no record for `proj-b`. -/
theorem two_projects_scenario :
    (runWalk fsTwoProjects ["root"]).st.results
      = [⟨["root", "proj-a", "target"], "cargo"⟩] := by
  decide

/-- C5 (counterexample): the claim says the cache performs exactly one
underlying read per successfully-read path, even for concurrent callers.
Interleaving two `readDirCached` calls for the same readable path (both pass
the `Load` check before either stores) performs the underlying read twice,
with both calls succeeding. -/
theorem concurrent_first_reads_duplicated :
    runSched fsOneDir ["p"] [0, 1, 0, 1] ⟨[], 0, [CallerPC.start, CallerPC.start]⟩
      = ⟨[(["p"], oneEntry)], 2,
         [CallerPC.done (Except.ok oneEntry), CallerPC.done (Except.ok oneEntry)]⟩ := by
  decide

/-- C5 (amended): once a successful read has been stored, any later
`readDirCached` call for that path returns the identical stored entry list and
leaves the state untouched — in particular it performs no further underlying
read; sequentially the cache thus reads each successfully-read path exactly
once, but two overlapping first calls may each perform an underlying read
because the check and the store are separate atomic steps. -/
theorem cached_read_not_repeated_sequentially (fs : FS) (p : List String)
    (c c1 : CacheState) (v : List DirEntry)
    (h : readDirCached fs p c = (Except.ok v, c1)) :
    readDirCached fs p c1 = (Except.ok v, c1) :=
  readDirCached_hit (readDirCached_ok_lookup h)

theorem cached_read_not_repeated_sequentially_witness :
    readDirCached fsOneDir ["p"] ⟨[(["p"], oneEntry)], [["p"]]⟩
      = (Except.ok oneEntry, ⟨[(["p"], oneEntry)], [["p"]]⟩) :=
  cached_read_not_repeated_sequentially fsOneDir ["p"] ⟨[], []⟩
    ⟨[(["p"], oneEntry)], [["p"]]⟩ oneEntry (by decide)

/-- C6: a `walk` call at or above the maximum recursion depth returns with the
state completely unchanged: no directory read, no FoundArtifact, no scheduled
visit, no counter increment.  (In the embedding `walkDir` runs on the fuel
`maxRecursionDepth - depth`, which strictly decreases along recursive calls,
so the recursion is well founded by construction.) -/
theorem walk_returns_at_depth_limit (fs : FS) (path : List String) (depth : Nat)
    (g : WalkGhost) (h : maxRecursionDepth ≤ depth) :
    walkDir fs path depth g = g := by
  unfold walkDir
  rw [Nat.sub_eq_zero_of_le h, walkDirAux]

theorem walk_returns_at_depth_limit_witness :
    walkDir fsTwoProjects ["root"] 1000 initGhost = initGhost :=
  walk_returns_at_depth_limit fsTwoProjects ["root"] 1000 initGhost (by decide)

/-- C7: every scheduled recursive visit is for a child whose `lstat` succeeded
and reported that it is not a symlink; contrapositively, a child that is a
symlink, or whose `lstat` failed, is never visited, so no path reachable only
through a symlink is descended into. -/
theorem scheduled_visits_are_not_symlinks (fuel : Nat) (fs : FS) (path : List String)
    (depth : Nat) (g : WalkGhost) (q : List String)
    (h : q ∈ (walkDirAux fs fuel path depth g).visited) :
    q ∈ g.visited ∨ fs.lstat q = Except.ok false := by
  rcases walkDirAux_visited fuel fs path depth g q h with h1 | h1
  · exact Or.inl h1
  · exact Or.inr h1.2

theorem scheduled_visits_are_not_symlinks_witness :
    ["root", "proj-b"] ∈ initGhost.visited ∨
      fsTwoProjects.lstat ["root", "proj-b"] = Except.ok false :=
  scheduled_visits_are_not_symlinks 1000 fsTwoProjects ["root"] 0 initGhost
    ["root", "proj-b"] (by decide)

/-- C8 (counterexample): the claim says the counter is incremented once per
scheduled directory, including directories whose read fails.  Walking a root
whose listing fails attempts the read (it appears in the reads log) but leaves
`dirCount` at 0, not 1. -/
theorem failed_read_not_counted :
    (runWalk fsUnreadable ["r"]).st.cacheSt.reads = [["r"]] ∧
      (runWalk fsUnreadable ["r"]).st.dirCount = 0 := by
  constructor
  · decide
  · decide

/-- C8 (amended): a `walk` invocation that passes the depth check and reads
its directory successfully increments the counter by exactly one, after all of
that directory's children have been scheduled (the `processed` ghost log is
appended at the very increment); across any execution the counter advances in
lockstep with the processed log, so depth-limited and failed-read invocations
(which leave `processed` unchanged) never increment it. -/
theorem dirCount_incremented_once_per_processed_dir (fuel : Nat) (fs : FS)
    (path : List String) (depth : Nat) (g : WalkGhost) (entries : List DirEntry)
    (c1 : CacheState) (hdepth : depth < maxRecursionDepth)
    (hr : readDirCached fs path g.st.cacheSt = (Except.ok entries, c1)) :
    ((walkDirAux fs fuel path depth g).st.dirCount + g.processed.length
        = g.st.dirCount + (walkDirAux fs fuel path depth g).processed.length) ∧
    (walkDirAux fs (fuel + 1) path depth g).st.dirCount
      = (walkChildren fs path depth (walkDirAux fs fuel) entries
          ⟨runDetectors fs path entries (mkNameMap entries)
            ⟨c1, g.st.results, g.st.dirCount⟩, g.visited, g.processed⟩).st.dirCount + 1 ∧
    (walkDirAux fs (fuel + 1) path depth g).processed
      = (walkChildren fs path depth (walkDirAux fs fuel) entries
          ⟨runDetectors fs path entries (mkNameMap entries)
            ⟨c1, g.st.results, g.st.dirCount⟩, g.visited, g.processed⟩).processed
        ++ [path] := by
  refine ⟨walkDirAux_lockstep fuel fs path depth g, ?_, ?_⟩
  · rw [walkDirAux, if_neg (Nat.not_le.mpr hdepth), hr]
  · rw [walkDirAux, if_neg (Nat.not_le.mpr hdepth), hr]

theorem dirCount_incremented_once_per_processed_dir_witness :
    (walkDirAux fsCargo 1000 ["d"] 0 initGhost).st.dirCount + initGhost.processed.length
      = initGhost.st.dirCount + (walkDirAux fsCargo 1000 ["d"] 0 initGhost).processed.length :=
  (dirCount_incremented_once_per_processed_dir 1000 fsCargo ["d"] 0 initGhost
    [⟨"Cargo.toml", false⟩, ⟨"target", true⟩] ⟨[(["d"],
      [⟨"Cargo.toml", false⟩, ⟨"target", true⟩])], [["d"]]⟩
    (by decide) (by decide)).1

/-- C10: the registry's names are pairwise distinct and every detector fires
at most once per directory, so one `runDetectors` pass appends at most one
FoundArtifact per artifact-type; and a detector with several candidate
artifact directories reports the first non-empty one in its fixed preference
order — the dotnet detector reports `bin` (not `obj`) and the flutter detector
reports `build` (not `.dart_tool`) when both candidates are non-empty. -/
theorem at_most_one_artifact_per_detector_and_fixed_preference :
    (∀ (fs : FS) (path : List String) (entries : List DirEntry)
       (nm : String → Option DirEntry) (st : WalkState) (t : String),
       (runDetectors fs path entries nm st).results.countP (fun r => r.typ == t)
         ≤ st.results.countP (fun r => r.typ == t) + 1) ∧
    (detectDotNet fsDotNetBoth ["d"]
        [⟨"app.csproj", false⟩, ⟨"bin", true⟩, ⟨"obj", true⟩]
        (mkNameMap [⟨"app.csproj", false⟩, ⟨"bin", true⟩, ⟨"obj", true⟩])
        ⟨[], []⟩).1 = (true, ["d", "bin"]) ∧
    (detectFlutter fsFlutterBoth ["f"]
        [⟨"pubspec.yaml", false⟩, ⟨"build", true⟩, ⟨".dart_tool", true⟩]
        (mkNameMap [⟨"pubspec.yaml", false⟩, ⟨"build", true⟩, ⟨".dart_tool", true⟩])
        ⟨[], []⟩).1 = (true, ["f", "build"]) := by
  refine ⟨?_, by decide, by decide⟩
  intro fs path entries nm st t
  calc (runDetectors fs path entries nm st).results.countP (fun r => r.typ == t)
      ≤ st.results.countP (fun r => r.typ == t)
          + (detectors.map Prod.fst).countP (fun n => n == t) :=
        foldl_detStep_count detectors st t
    _ ≤ st.results.countP (fun r => r.typ == t) + 1 :=
        Nat.add_le_add_left (detectorNames_count_le_one t) _

end ShitClean
